import Mathlib

/-!
# Verification of the pybez curve library (`pybez/api.py`)

A shallow embedding of the pybez core: the `Point`/`Bezier` editing model and
the pure curve-baking functions `quadratic` and `cubic`, together with proofs
of the library's stated properties.

Modelling conventions:
* Python numbers (`int`/`float`) are modelled by an arbitrary `Field`
  (a `LinearOrderedField` where comparisons occur); concrete instances used
  in examples are `ℚ` (exact, decidable) and `ℝ` (where `math.sqrt` is used).
* `math.sqrt` is `Real.sqrt`, so the handle-movement model lives over `ℝ`.
* A Python function that raises `ValueError` is modelled with
  `Except String`; the assert messages are kept verbatim.
* The accumulated loop variable `r` (`r = 0.0; ...; r += incr`) is modelled
  by its exact value `k * incr` at the `k`-th iteration, which is what the
  float loop computes up to rounding.
* In-place mutation of a `Point` becomes a function returning the new
  `Point`.
-/

set_option maxHeartbeats 1000000

namespace PyBez

/-!  ## Definitions: the embedded pybez core  -/

/-- `BezierMode` enumeration of `api.py`. -/
inductive BezierMode
  | QUADRATIC
  | CUBIC
  deriving DecidableEq, Repr

/-- `PointMode` enumeration of `api.py`: how control points behave when moved. -/
inductive PointMode
  | CUSP
  | SMOOTH
  | SYMMETRICAL
  deriving DecidableEq, Repr

/-- `PointType` enumeration of `api.py`: which part of a bezier point. -/
inductive PointType
  | POSITION
  | CTRL_BEGIN
  | CTRL_END
  deriving DecidableEq, Repr

/-- `Point.__slots__ = 'pos', 'begin', 'end', 'mode'` (the `end` slot is
named `end_` because `end` is reserved in Lean). -/
structure Point (α : Type) where
  pos : α × α
  begin : α × α
  end_ : α × α
  mode : PointMode
  deriving DecidableEq, Repr

/-- `opposite(p)` of `api.py`: componentwise negation. -/
def opposite {α : Type} [Neg α] (p : α × α) : α × α :=
  (-p.1, -p.2)

/-- `length(p)` of `api.py`: `math.sqrt(p[0] ** 2 + p[1] ** 2)`. -/
noncomputable def length (p : ℝ × ℝ) : ℝ :=
  Real.sqrt (p.1 ^ 2 + p.2 ^ 2)

/-- `normal(p, scale)` of `api.py`: scales `p` to length `scale`, or returns
the zero vector when `length p = 0` (the division is guarded). -/
noncomputable def normal (p : ℝ × ℝ) (scale : ℝ) : ℝ × ℝ :=
  if length p ≠ 0 then ((p.1 / length p) * scale, (p.2 / length p) * scale)
  else (0, 0)

/-- `lerp(a, b, r)` of `api.py`. -/
def lerp {α : Type} [Field α] (a b r : α) : α :=
  a + (b - a) * r

/-- `lerp2(a, b, r)` of `api.py`: componentwise linear interpolation. -/
def lerp2 {α : Type} [Field α] (a b : α × α) (r : α) : α × α :=
  (a.1 + (b.1 - a.1) * r, a.2 + (b.2 - a.2) * r)

/-- The body of the loop in `Point.find_point`: the offset `location - p`
when `p` is within `margin` of `location` on both axes, else `none`. -/
def withinMargin {α : Type} [LinearOrderedField α] (location p : α × α) (margin : α) :
    Option (α × α) :=
  let ox := location.1 - p.1
  let oy := location.2 - p.2
  if |ox| > margin ∨ |oy| > margin then none else some (ox, oy)

/-- `Point.find_point(location, margin)` of `api.py`: tests `pos`, `begin`,
`end` in that order, returning the first part within `margin` together with
the offset `location - part`. -/
def Point.find_point {α : Type} [LinearOrderedField α] (self : Point α)
    (location : α × α) (margin : α) : Option (PointType × (α × α)) :=
  match withinMargin location self.pos margin with
  | some o => some (PointType.POSITION, o)
  | none =>
    match withinMargin location self.begin margin with
    | some o => some (PointType.CTRL_BEGIN, o)
    | none =>
      match withinMargin location self.end_ margin with
      | some o => some (PointType.CTRL_END, o)
      | none => none

/-- `Point.move_point(point_type, position, offset)` of `api.py`, as a
function returning the updated point.  The resolved target is
`(offset + position)`; moving the anchor translates both handles, moving a
handle updates the sibling handle according to `mode` (`SMOOTH` keeps the
sibling's previous distance via `normal`, `SYMMETRICAL` mirrors the new
displacement, `CUSP` leaves the sibling alone). -/
noncomputable def Point.move_point (self : Point ℝ) (point_type : PointType)
    (position offset : ℝ × ℝ) : Point ℝ :=
  let x := position.1
  let y := position.2
  let ox := offset.1
  let oy := offset.2
  let px := self.pos.1
  let py := self.pos.2
  let dbx := self.begin.1 - px
  let dby := self.begin.2 - py
  let dex := self.end_.1 - px
  let dey := self.end_.2 - py
  match point_type with
  | PointType.POSITION =>
    { self with pos := (ox + x, oy + y),
                begin := (ox + x + dbx, oy + y + dby),
                end_ := (ox + x + dex, oy + y + dey) }
  | PointType.CTRL_BEGIN =>
    let elen := length (dex, dey)
    let dbx2 := (ox + x) - px
    let dby2 := (oy + y) - py
    let self1 := { self with begin := (ox + x, oy + y) }
    if self.mode = PointMode.SMOOTH then
      let e := normal (opposite (dbx2, dby2)) elen
      { self1 with end_ := (px + e.1, py + e.2) }
    else if self.mode = PointMode.SYMMETRICAL then
      let e := opposite (dbx2, dby2)
      { self1 with end_ := (px + e.1, py + e.2) }
    else self1
  | PointType.CTRL_END =>
    let self1 := { self with end_ := (ox + x, oy + y) }
    let blen := length (dbx, dby)
    let dex2 := (ox + x) - px
    let dey2 := (oy + y) - py
    if self.mode = PointMode.SMOOTH then
      let b := normal (opposite (dex2, dey2)) blen
      { self1 with begin := (px + b.1, py + b.2) }
    else if self.mode = PointMode.SYMMETRICAL then
      let b := opposite (dex2, dey2)
      { self1 with begin := (px + b.1, py + b.2) }
    else self1

/-- `cubic_segments(x)` of `api.py` applied to a point count. -/
def cubic_segments (x : ℕ) : ℕ :=
  if x < 4 then 0 else (x - 4) / 3 + 1

/-- `quadratic(points, resolution)` of `api.py`: validates the input
(`len(points)` odd and at least 3, `resolution` at least 3, in the source's
assert order), then emits, for each of the `(n-1)/2` segments, `resolution`
samples of the 2-level De Casteljau interpolation at `r = k * (1/resolution)`,
and finally appends the input's last point. -/
def quadratic {α : Type} [Field α] (points : List (α × α)) (resolution : ℤ) :
    Except String (List (α × α)) :=
  let n := points.length
  if ¬ n % 2 = 1 then Except.error ("An odd number of points must be provided.")
  else if ¬ 3 ≤ resolution then Except.error ("Resolution is too low.")
  else if ¬ 3 ≤ n then Except.error ("Number of points is too low.")
  else
    let steps := (n - 1) / 2
    let incr : α := 1 / (resolution : α)
    Except.ok ((List.range steps).flatMap (fun step =>
      (List.range resolution.toNat).map (fun (k : ℕ) =>
        let r : α := (k : α) * incr
        let i := step * 2
        let la := lerp2 (points.getD i (0, 0)) (points.getD (i + 1) (0, 0)) r
        let lb := lerp2 (points.getD (i + 1) (0, 0)) (points.getD (i + 2) (0, 0)) r
        lerp2 la lb r)) ++ [points.getLastD (0, 0)])

/-- `cubic(points, resolution)` of `api.py`: validates the input
(`len(points)` at least 4 with `(n-4) % 3 == 0`, `resolution` at least 3, in
the source's assert order), then emits, for each of the `cubic_segments n`
segments, `resolution` samples of the 3-level De Casteljau interpolation at
`r = k * (1/resolution)`, and finally appends the input's last point. -/
def cubic {α : Type} [Field α] (points : List (α × α)) (resolution : ℤ) :
    Except String (List (α × α)) :=
  let n := points.length
  if ¬ 4 ≤ n then Except.error ("Number of points is too low.")
  else if ¬ (n - 4) % 3 = 0 then Except.error ("Too many or too few points provided.")
  else if ¬ 3 ≤ resolution then Except.error ("Resolution is too low.")
  else
    let steps := cubic_segments n
    let incr : α := 1 / (resolution : α)
    Except.ok ((List.range steps).flatMap (fun step =>
      (List.range resolution.toNat).map (fun (k : ℕ) =>
        let r : α := (k : α) * incr
        let s := step * 3
        let a := points.getD s (0, 0)
        let b := points.getD (s + 1) (0, 0)
        let c := points.getD (s + 2) (0, 0)
        let d := points.getD (s + 3) (0, 0)
        let e := lerp2 a b r
        let f := lerp2 b c r
        let g := lerp2 c d r
        let h := lerp2 e f r
        let i := lerp2 f g r
        lerp2 h i r)) ++ [points.getLastD (0, 0)])

/-- De Casteljau evaluation of quadratic segment `step`, as the spec
describes it: interpolate `points[2*step] → points[2*step+1]` and
`points[2*step+1] → points[2*step+2]` at `r`, then interpolate the two
results at `r`. -/
def quadSegEval {α : Type} [Field α] (points : List (α × α)) (step : ℕ) (r : α) : α × α :=
  let p0 := points.getD (2 * step) (0, 0)
  let p1 := points.getD (2 * step + 1) (0, 0)
  let p2 := points.getD (2 * step + 2) (0, 0)
  lerp2 (lerp2 p0 p1 r) (lerp2 p1 p2 r) r

/-- De Casteljau evaluation of cubic segment `step`, as the spec describes
it: three levels of pairwise `lerp2` over `points[3*step .. 3*step+3]`. -/
def cubicSegEval {α : Type} [Field α] (points : List (α × α)) (step : ℕ) (r : α) : α × α :=
  let p0 := points.getD (3 * step) (0, 0)
  let p1 := points.getD (3 * step + 1) (0, 0)
  let p2 := points.getD (3 * step + 2) (0, 0)
  let p3 := points.getD (3 * step + 3) (0, 0)
  lerp2 (lerp2 (lerp2 p0 p1 r) (lerp2 p1 p2 r) r) (lerp2 (lerp2 p1 p2 r) (lerp2 p2 p3 r) r) r

/-! ### List helper lemmas for the baked output

The baked body is a `flatMap` over segments of a `map` over samples; these
lemmas give its length and its entry at index `s * R + k`. -/

/-- `Bezier` of `api.py`: an ordered list of `Point`s plus the `_is_cubic`
mode flag. -/
structure Bezier (α : Type) where
  points : List (Point α)
  is_cubic : Bool

/-- The loop of `Bezier.find_point`: try each point in order (`i` is the
running `enumerate` index); a hit is skipped (the loop `continue`s) when the
part is `CTRL_END` and the bezier is not cubic. -/
def find_point_aux {α : Type} [LinearOrderedField α] (cub : Bool) (location : α × α)
    (margin : α) : List (Point α) → ℕ → Option (ℕ × PointType × (α × α))
  | [], _ => none
  | p :: ps, i =>
    match p.find_point location margin with
    | none => find_point_aux cub location margin ps (i + 1)
    | some (pty, ofs) =>
      if cub = false ∧ pty = PointType.CTRL_END then
        find_point_aux cub location margin ps (i + 1)
      else some (i, pty, ofs)

/-- `Bezier.find_point(location, margin)` of `api.py`. -/
def Bezier.find_point {α : Type} [LinearOrderedField α] (self : Bezier α)
    (location : α × α) (margin : α) : Option (ℕ × PointType × (α × α)) :=
  find_point_aux self.is_cubic location margin self.points 0

/-- The quadratic branch of the loop in `Bezier.bake_points`: every point
contributes `[pos, begin]` except the last (`i = last`), which contributes
`[pos]`. -/
def bake_points_aux_quad {α : Type} (last : ℕ) : ℕ → List (Point α) → List (α × α)
  | _, [] => []
  | i, p :: ps =>
    (if i = last then [p.pos] else [p.pos, p.begin]) ++ bake_points_aux_quad last (i + 1) ps

/-- The cubic branch of the loop in `Bezier.bake_points`: the first point
contributes `[pos, begin]`, the last `[end, pos]`, interior points
`[end, pos, begin]`. -/
def bake_points_aux_cubic {α : Type} (last : ℕ) : ℕ → List (Point α) → List (α × α)
  | _, [] => []
  | i, p :: ps =>
    (if i = 0 then [p.pos, p.begin]
     else if i = last then [p.end_, p.pos]
     else [p.end_, p.pos, p.begin]) ++ bake_points_aux_cubic last (i + 1) ps

/-- `Bezier.bake_points()` of `api.py`: the flattened control-polygon view
fed to the bakers. -/
def Bezier.bake_points {α : Type} (self : Bezier α) : List (α × α) :=
  let last := self.points.length - 1
  if self.is_cubic then bake_points_aux_cubic last 0 self.points
  else bake_points_aux_quad last 0 self.points

/-- `Bezier.bake_curve(resolution)` of `api.py`: bakes the flattened view
with the baker matching the mode. -/
def Bezier.bake_curve {α : Type} [LinearOrderedField α] (self : Bezier α)
    (resolution : ℤ) : Except String (List (α × α)) :=
  if self.is_cubic then cubic self.bake_points resolution
  else quadratic self.bake_points resolution

/-- Componentwise difference, used to phrase displacements from the anchor. -/
def vsub {α : Type} [Field α] (a b : α × α) : α × α :=
  (a.1 - b.1, a.2 - b.2)

/-- The target position `move_point` resolves: `offset + new_location`. -/
def resolved {α : Type} [Field α] (position offset : α × α) : α × α :=
  (offset.1 + position.1, offset.2 + position.2)

/-- The part of a `Point` a `PointType` designates. -/
def getPart {α : Type} (pt : Point α) : PointType → α × α
  | PointType.POSITION => pt.pos
  | PointType.CTRL_BEGIN => pt.begin
  | PointType.CTRL_END => pt.end_

/-- A concrete two-point quadratic bezier used to witness `C9`. -/
def demoBez : Bezier ℚ :=
  { points := [{ pos := (0, 0), begin := (10, 0), end_ := (-10, 0),
                 mode := PointMode.SYMMETRICAL },
               { pos := (50, 0), begin := (60, 0), end_ := (40, 0),
                 mode := PointMode.SYMMETRICAL }],
    is_cubic := false }

/-- A concrete point (`Point(0, 0, dist=10)` with `CUSP` mode) used for the
C7 counterexample and witness. -/
noncomputable def cexPt : Point ℝ :=
  { pos := (0, 0), begin := (10, 0), end_ := (-10, 0), mode := PointMode.CUSP }

/-- A concrete `SMOOTH`-mode point used to witness C4 and C10. -/
noncomputable def smoothPt : Point ℝ :=
  { pos := (0, 0), begin := (10, 0), end_ := (0, 20), mode := PointMode.SMOOTH }

/-- A concrete `SYMMETRICAL`-mode point (`Point(0, 0, dist=10)`) used to
witness C5. -/
noncomputable def symmPt : Point ℝ :=
  { pos := (0, 0), begin := (10, 0), end_ := (-10, 0), mode := PointMode.SYMMETRICAL }

/-!  ## Theorems  -/

theorem length_flatMap_range_map {β : Type} (f : ℕ → ℕ → β) (S R : ℕ) :
    ((List.range S).flatMap fun s => (List.range R).map (f s)).length = S * R := by
  induction S with
  | zero => simp
  | succ S ih =>
    rw [List.range_succ, List.flatMap_append, List.length_append, ih]
    simp [Nat.succ_mul]

theorem index_lt_mul {S R s k : ℕ} (hs : s < S) (hk : k < R) : s * R + k < S * R :=
  calc s * R + k < s * R + R := by omega
  _ = (s + 1) * R := by ring
  _ ≤ S * R := Nat.mul_le_mul_right R hs

theorem getD_flatMap_range_map {β : Type} (f : ℕ → ℕ → β) {S R s k : ℕ}
    (hs : s < S) (hk : k < R) (d : β) :
    ((List.range S).flatMap fun s => (List.range R).map (f s)).getD (s * R + k) d = f s k := by
  induction S with
  | zero => omega
  | succ S ih =>
    rw [List.range_succ, List.flatMap_append]
    rcases Nat.lt_or_ge s S with h | h
    · rw [List.getD_append]
      · exact ih h
      · rw [length_flatMap_range_map]
        exact index_lt_mul h hk
    · have hsS : s = S := by omega
      subst hsS
      rw [List.getD_append_right]
      · rw [length_flatMap_range_map]
        simp only [List.flatMap_cons, List.flatMap_nil, List.append_nil]
        have hk2 : s * R + k - s * R = k := by omega
        have hlen : k < ((List.range R).map (f s)).length := by simpa using hk
        rw [hk2, List.getD_eq_getElem _ _ hlen, List.getElem_map, List.getElem_range]
      · rw [length_flatMap_range_map]
        omega

/-- `quadratic` on valid input: the guards pass and the result is the body
the source's loops build (segment-major, `resolution` samples each, with the
final input point appended). -/
theorem quadratic_eq_ok {α : Type} [Field α] (points : List (α × α)) (resolution : ℤ)
    (h1 : points.length % 2 = 1) (h2 : 3 ≤ resolution) (h3 : 3 ≤ points.length) :
    quadratic points resolution = Except.ok
      ((List.range ((points.length - 1) / 2)).flatMap (fun step =>
        (List.range resolution.toNat).map (fun (k : ℕ) =>
          let r : α := (k : α) * (1 / (resolution : α))
          lerp2 (lerp2 (points.getD (step * 2) (0, 0)) (points.getD (step * 2 + 1) (0, 0)) r)
                (lerp2 (points.getD (step * 2 + 1) (0, 0)) (points.getD (step * 2 + 2) (0, 0)) r)
                r))
        ++ [points.getLastD (0, 0)]) := by
  unfold quadratic
  rw [if_neg (not_not_intro h1), if_neg (not_not_intro h2), if_neg (not_not_intro h3)]

/-- `cubic` on valid input: the guards pass and the result is the body the
source's loops build. -/
theorem cubic_eq_ok {α : Type} [Field α] (points : List (α × α)) (resolution : ℤ)
    (h1 : 4 ≤ points.length) (h2 : (points.length - 4) % 3 = 0) (h3 : 3 ≤ resolution) :
    cubic points resolution = Except.ok
      ((List.range (cubic_segments points.length)).flatMap (fun step =>
        (List.range resolution.toNat).map (fun (k : ℕ) =>
          let r : α := (k : α) * (1 / (resolution : α))
          lerp2 (lerp2 (lerp2 (points.getD (step * 3) (0, 0))
                              (points.getD (step * 3 + 1) (0, 0)) r)
                       (lerp2 (points.getD (step * 3 + 1) (0, 0))
                              (points.getD (step * 3 + 2) (0, 0)) r) r)
                (lerp2 (lerp2 (points.getD (step * 3 + 1) (0, 0))
                              (points.getD (step * 3 + 2) (0, 0)) r)
                       (lerp2 (points.getD (step * 3 + 2) (0, 0))
                              (points.getD (step * 3 + 3) (0, 0)) r) r)
                r))
        ++ [points.getLastD (0, 0)]) := by
  unfold cubic
  rw [if_neg (not_not_intro h1), if_neg (not_not_intro h2), if_neg (not_not_intro h3)]

/-- C1: for every point sequence and resolution satisfying the
preconditions, the baked output at index `step * resolution + k`
(`0 <= k < resolution`) equals the De Casteljau evaluation of segment
`step` at parameter `r = k / resolution`: two levels of pairwise `lerp2`
over `points[2*step .. 2*step+2]` for `quadratic`, three levels over
`points[3*step .. 3*step+3]` for `cubic`. -/
theorem C1_bake_samples_de_casteljau :
    (∀ (α : Type) [Field α] (points : List (α × α)) (resolution : ℤ) (step k : ℕ),
        points.length % 2 = 1 → 3 ≤ resolution → 3 ≤ points.length →
        step < (points.length - 1) / 2 → k < resolution.toNat →
        ∃ out, quadratic points resolution = Except.ok out ∧
          out.getD (step * resolution.toNat + k) (0, 0)
            = quadSegEval points step ((k : α) / (resolution : α))) ∧
    (∀ (α : Type) [Field α] (points : List (α × α)) (resolution : ℤ) (step k : ℕ),
        4 ≤ points.length → (points.length - 4) % 3 = 0 → 3 ≤ resolution →
        step < cubic_segments points.length → k < resolution.toNat →
        ∃ out, cubic points resolution = Except.ok out ∧
          out.getD (step * resolution.toNat + k) (0, 0)
            = cubicSegEval points step ((k : α) / (resolution : α))) := by
  constructor
  · intro α instF points resolution step k h1 h2 h3 hstep hk
    refine ⟨_, quadratic_eq_ok points resolution h1 h2 h3, ?_⟩
    rw [List.getD_append]
    · rw [getD_flatMap_range_map _ hstep hk]
      simp only [quadSegEval, mul_one_div, Nat.mul_comm step 2]
    · rw [length_flatMap_range_map]
      exact index_lt_mul hstep hk
  · intro α instF points resolution step k h1 h2 h3 hstep hk
    refine ⟨_, cubic_eq_ok points resolution h1 h2 h3, ?_⟩
    rw [List.getD_append]
    · rw [getD_flatMap_range_map _ hstep hk]
      simp only [cubicSegEval, mul_one_div, Nat.mul_comm step 3]
    · rw [length_flatMap_range_map]
      exact index_lt_mul hstep hk

/-- C2: on valid input, `quadratic` returns `(n-1)/2 * resolution + 1`
points and `cubic` returns `((n-4)/3 + 1) * resolution + 1` points; in both
cases the last element of the output equals the last element of the input
exactly, appended exactly once at the very end (it sits at index
`steps * resolution`, right after the `steps * resolution` segment
samples). -/
theorem C2_bake_length_and_last :
    (∀ (α : Type) [Field α] (points : List (α × α)) (resolution : ℤ),
        points.length % 2 = 1 → 3 ≤ resolution → 3 ≤ points.length →
        ∃ out, quadratic points resolution = Except.ok out ∧
          out.length = (points.length - 1) / 2 * resolution.toNat + 1 ∧
          out.getLastD (0, 0) = points.getLastD (0, 0) ∧
          out.getD ((points.length - 1) / 2 * resolution.toNat) (0, 0)
            = points.getLastD (0, 0)) ∧
    (∀ (α : Type) [Field α] (points : List (α × α)) (resolution : ℤ),
        4 ≤ points.length → (points.length - 4) % 3 = 0 → 3 ≤ resolution →
        ∃ out, cubic points resolution = Except.ok out ∧
          out.length = ((points.length - 4) / 3 + 1) * resolution.toNat + 1 ∧
          out.getLastD (0, 0) = points.getLastD (0, 0) ∧
          out.getD (((points.length - 4) / 3 + 1) * resolution.toNat) (0, 0)
            = points.getLastD (0, 0)) := by
  constructor
  · intro α instF points resolution h1 h2 h3
    refine ⟨_, quadratic_eq_ok points resolution h1 h2 h3, ?_, ?_, ?_⟩
    · rw [List.length_append, length_flatMap_range_map]
      simp
    · exact List.getLastD_concat _ _ _
    · rw [List.getD_append_right]
      · rw [length_flatMap_range_map, Nat.sub_self]
        rfl
      · rw [length_flatMap_range_map]
  · intro α instF points resolution h1 h2 h3
    have hseg : cubic_segments points.length = (points.length - 4) / 3 + 1 := by
      unfold cubic_segments
      rw [if_neg (by omega)]
    refine ⟨_, cubic_eq_ok points resolution h1 h2 h3, ?_, ?_, ?_⟩
    · rw [List.length_append, length_flatMap_range_map, hseg]
      simp
    · exact List.getLastD_concat _ _ _
    · rw [List.getD_append_right]
      · rw [length_flatMap_range_map, hseg, Nat.sub_self]
        rfl
      · rw [length_flatMap_range_map, hseg]

/-- C3: `quadratic` fails (with the `ValueError` modelled as
`Except.error`) if and only if `len(points)` is even, or `len(points) < 3`,
or `resolution < 3`; `cubic` fails if and only if `len(points) < 4`, or
`(len(points) - 4) % 3 != 0`, or `resolution < 3`; the error carries no
partial output, and on every other input both functions return normally
(`Except.ok`). -/
theorem C3_invalid_input_iff :
    (∀ (α : Type) [Field α] (points : List (α × α)) (resolution : ℤ),
        (∃ e, quadratic points resolution = Except.error e) ↔
          (points.length % 2 = 0 ∨ points.length < 3 ∨ resolution < 3)) ∧
    (∀ (α : Type) [Field α] (points : List (α × α)) (resolution : ℤ),
        (∃ e, cubic points resolution = Except.error e) ↔
          (points.length < 4 ∨ (points.length - 4) % 3 ≠ 0 ∨ resolution < 3)) ∧
    (∀ (α : Type) [Field α] (points : List (α × α)) (resolution : ℤ),
        ¬ (points.length % 2 = 0 ∨ points.length < 3 ∨ resolution < 3) →
        ∃ out, quadratic points resolution = Except.ok out) ∧
    (∀ (α : Type) [Field α] (points : List (α × α)) (resolution : ℤ),
        ¬ (points.length < 4 ∨ (points.length - 4) % 3 ≠ 0 ∨ resolution < 3) →
        ∃ out, cubic points resolution = Except.ok out) := by
  refine ⟨?_, ?_, ?_, ?_⟩
  · intro α instF points resolution
    constructor
    · rintro ⟨e, he⟩
      by_contra hcon
      push_neg at hcon
      obtain ⟨h0, h3n, h3r⟩ := hcon
      rw [quadratic_eq_ok points resolution (by omega) (by omega) (by omega)] at he
      exact Except.noConfusion he
    · intro h
      unfold quadratic
      by_cases c1 : points.length % 2 = 1
      · by_cases c2 : 3 ≤ resolution
        · have c3 : points.length < 3 := by
            rcases h with h | h | h
            · omega
            · exact h
            · omega
          rw [if_neg (not_not_intro c1), if_neg (not_not_intro c2), if_pos (by omega)]
          exact ⟨_, rfl⟩
        · rw [if_neg (not_not_intro c1), if_pos c2]
          exact ⟨_, rfl⟩
      · rw [if_pos c1]
        exact ⟨_, rfl⟩
  · intro α instF points resolution
    constructor
    · rintro ⟨e, he⟩
      by_contra hcon
      push_neg at hcon
      obtain ⟨h0, h3n, h3r⟩ := hcon
      rw [cubic_eq_ok points resolution (by omega) (by omega) (by omega)] at he
      exact Except.noConfusion he
    · intro h
      unfold cubic
      by_cases c1 : 4 ≤ points.length
      · by_cases c2 : (points.length - 4) % 3 = 0
        · have c3 : resolution < 3 := by
            rcases h with h | h | h
            · omega
            · exact absurd c2 h
            · exact h
          rw [if_neg (not_not_intro c1), if_neg (not_not_intro c2), if_pos (by omega)]
          exact ⟨_, rfl⟩
        · rw [if_neg (not_not_intro c1), if_pos c2]
          exact ⟨_, rfl⟩
      · rw [if_pos c1]
        exact ⟨_, rfl⟩
  · intro α instF points resolution h
    push_neg at h
    obtain ⟨h0, h3n, h3r⟩ := h
    exact ⟨_, quadratic_eq_ok points resolution (by omega) (by omega) (by omega)⟩
  · intro α instF points resolution h
    push_neg at h
    obtain ⟨h0, h3n, h3r⟩ := h
    exact ⟨_, cubic_eq_ok points resolution (by omega) (by omega) (by omega)⟩

/-- Sanity scenario from the spec: `quadratic [(0,0),(5,10),(10,0)] 3` has
exactly 4 output points, the first `(0, 0)` and the last `(10, 0)`. -/
theorem quadratic_scenario :
    quadratic ([((0 : ℚ), 0), (5, 10), (10, 0)]) 3
      = Except.ok [(0, 0), (10/3, 40/9), (20/3, 40/9), (10, 0)] := by
  rw [show quadratic ([((0 : ℚ), 0), (5, 10), (10, 0)]) 3
      = Except.ok (List.map (fun k : ℕ =>
          lerp2 (lerp2 ((0 : ℚ), (0 : ℚ)) (5, 10) ((k : ℚ) * (1/3)))
                (lerp2 ((5 : ℚ), (10 : ℚ)) (10, 0) ((k : ℚ) * (1/3)))
                ((k : ℚ) * (1/3))) [0, 1, 2] ++ [((10 : ℚ), 0)]) from rfl]
  norm_num [lerp2, Prod.ext_iff]

/-- Sanity scenario from the spec: `cubic [(0,0),(0,10),(10,10),(10,0)] 3`
has exactly 4 output points, the first `(0, 0)` and the last `(10, 0)`. -/
theorem cubic_scenario :
    cubic ([((0 : ℚ), 0), (0, 10), (10, 10), (10, 0)]) 3
      = Except.ok [(0, 0), (70/27, 20/3), (200/27, 20/3), (10, 0)] := by
  rw [show cubic ([((0 : ℚ), 0), (0, 10), (10, 10), (10, 0)]) 3
      = Except.ok (List.map (fun k : ℕ =>
          lerp2 (lerp2 (lerp2 ((0 : ℚ), (0 : ℚ)) (0, 10) ((k : ℚ) * (1/3)))
                       (lerp2 ((0 : ℚ), (10 : ℚ)) (10, 10) ((k : ℚ) * (1/3))) ((k : ℚ) * (1/3)))
                (lerp2 (lerp2 ((0 : ℚ), (10 : ℚ)) (10, 10) ((k : ℚ) * (1/3)))
                       (lerp2 ((10 : ℚ), (10 : ℚ)) (10, 0) ((k : ℚ) * (1/3))) ((k : ℚ) * (1/3)))
                ((k : ℚ) * (1/3))) [0, 1, 2] ++ [((10 : ℚ), 0)]) from rfl]
  norm_num [lerp2, Prod.ext_iff]

theorem find_point_aux_ne_ctrl_end {α : Type} [LinearOrderedField α]
    (location : α × α) (margin : α) :
    ∀ (ps : List (Point α)) (i j : ℕ) (ofs : α × α),
      find_point_aux false location margin ps i ≠ some (j, PointType.CTRL_END, ofs) := by
  intro ps
  induction ps with
  | nil => intro i j ofs; simp [find_point_aux]
  | cons p ps ih =>
    intro i j ofs
    unfold find_point_aux
    split
    · exact ih (i + 1) j ofs
    · split
      · exact ih (i + 1) j ofs
      · rename_i pty o hcond
        simp only [false_and, and_true, eq_self_iff_true, true_and] at hcond ⊢
        intro h
        simp only [Option.some.injEq, Prod.mk.injEq] at h
        exact absurd h.2.1 (by simpa using hcond)

theorem bake_points_aux_quad_length {α : Type} (ps : List (Point α)) :
    ∀ i last, i + ps.length = last + 1 →
      (bake_points_aux_quad last i ps).length = 2 * ps.length - 1 := by
  induction ps with
  | nil => intro i last h; simp [bake_points_aux_quad]
  | cons p ps ih =>
    intro i last h
    unfold bake_points_aux_quad
    by_cases hps : ps = []
    · subst hps
      have : i = last := by simpa using h
      rw [if_pos this]
      simp [bake_points_aux_quad]
    · have hpos : 0 < ps.length := List.length_pos.mpr hps
      have : i ≠ last := by simp at h; omega
      rw [if_neg this]
      rw [List.length_append, ih (i + 1) last (by simp at h ⊢; omega)]
      simp
      omega

theorem bake_points_aux_cubic_tail_length {α : Type} (ps : List (Point α)) :
    ∀ i last, 1 ≤ i → i + ps.length = last + 1 →
      (bake_points_aux_cubic last i ps).length = 3 * ps.length - 1 := by
  induction ps with
  | nil => intro i last h1 h; simp [bake_points_aux_cubic]
  | cons p ps ih =>
    intro i last h1 h
    unfold bake_points_aux_cubic
    rw [if_neg (by omega)]
    by_cases hps : ps = []
    · subst hps
      have : i = last := by simpa using h
      rw [if_pos this]
      simp [bake_points_aux_cubic]
    · have hpos : 0 < ps.length := List.length_pos.mpr hps
      have : i ≠ last := by simp at h; omega
      rw [if_neg this]
      rw [List.length_append, ih (i + 1) last (by omega) (by simp at h ⊢; omega)]
      simp
      omega

theorem Bezier.bake_points_length {α : Type} (b : Bezier α) (h2 : 2 ≤ b.points.length) :
    (b.is_cubic = false → b.bake_points.length = 2 * b.points.length - 1) ∧
    (b.is_cubic = true → b.bake_points.length = 3 * b.points.length - 2) := by
  constructor
  · intro hc
    rw [Bezier.bake_points, hc]
    simp only [Bool.false_eq_true, if_false]
    exact bake_points_aux_quad_length b.points 0 (b.points.length - 1) (by omega)
  · intro hc
    rw [Bezier.bake_points, hc, if_pos rfl]
    match hl : b.points with
    | [] => rw [hl] at h2; simp at h2
    | p :: ps =>
      have hps : ps ≠ [] := by
        intro hnil
        rw [hl, hnil] at h2
        simp at h2
      have hpos : 0 < ps.length := List.length_pos.mpr hps
      unfold bake_points_aux_cubic
      rw [if_pos rfl]
      rw [List.length_append,
        bake_points_aux_cubic_tail_length ps 1 ((p :: ps).length - 1) (by omega) (by simp; omega)]
      simp
      omega

/-- C6: in quadratic mode, `Bezier.find_point` never returns a `CTRL_END`
hit (`HandleOut`); when a point's `end` handle is the part within margin,
the loop continues with the subsequent points. -/
theorem C6_quadratic_never_returns_handle_out :
    (∀ (α : Type) [LinearOrderedField α] (b : Bezier α) (location : α × α) (margin : α),
        b.is_cubic = false →
        ∀ (i : ℕ) (ofs : α × α),
          b.find_point location margin ≠ some (i, PointType.CTRL_END, ofs)) ∧
    (∀ (α : Type) [LinearOrderedField α] (location : α × α) (margin : α)
        (p : Point α) (ps : List (Point α)) (i : ℕ) (ofs : α × α),
        p.find_point location margin = some (PointType.CTRL_END, ofs) →
        find_point_aux false location margin (p :: ps) i
          = find_point_aux false location margin ps (i + 1)) := by
  constructor
  · intro α instF b location margin hcub i ofs
    rw [Bezier.find_point, hcub]
    exact find_point_aux_ne_ctrl_end location margin b.points 0 i ofs
  · intro α instF location margin p ps i ofs hfp
    conv_lhs => rw [find_point_aux.eq_def]
    dsimp only
    rw [hfp]
    dsimp only
    rw [if_pos ⟨rfl, rfl⟩]

/-- C9: every bezier with at least two points flattens, via `bake_points`,
to `2n - 1` points in quadratic mode and `3n - 2` points in cubic mode;
both counts satisfy the corresponding baker's precondition, so
`bake_curve` with any `resolution >= 3` returns `Except.ok` (never the
`InvalidCurveInput` error). -/
theorem C9_bake_curve_never_fails (α : Type) [LinearOrderedField α] (b : Bezier α)
    (h2 : 2 ≤ b.points.length) :
    (b.is_cubic = false → b.bake_points.length = 2 * b.points.length - 1) ∧
    (b.is_cubic = true → b.bake_points.length = 3 * b.points.length - 2) ∧
    (∀ resolution : ℤ, 3 ≤ resolution →
      ∃ out, b.bake_curve resolution = Except.ok out) := by
  obtain ⟨hq, hc⟩ := Bezier.bake_points_length b h2
  refine ⟨hq, hc, ?_⟩
  intro resolution hres
  rw [Bezier.bake_curve]
  cases hcub : b.is_cubic with
  | false =>
    simp only [Bool.false_eq_true, if_false]
    have hlen := hq hcub
    exact ⟨_, quadratic_eq_ok _ resolution (by omega) hres (by omega)⟩
  | true =>
    rw [if_pos rfl]
    have hlen := hc hcub
    exact ⟨_, cubic_eq_ok _ resolution (by omega) (by omega) hres⟩

/-- Witness for C9 at a concrete two-point bezier. -/
theorem C9_bake_curve_never_fails_witness :
    2 ≤ demoBez.points.length ∧
    ((demoBez.is_cubic = false → demoBez.bake_points.length = 2 * demoBez.points.length - 1) ∧
     (demoBez.is_cubic = true → demoBez.bake_points.length = 3 * demoBez.points.length - 2) ∧
     (∀ resolution : ℤ, 3 ≤ resolution →
       ∃ out, demoBez.bake_curve resolution = Except.ok out)) :=
  ⟨by decide, C9_bake_curve_never_fails ℚ demoBez (by decide)⟩

theorem length_nonneg (v : ℝ × ℝ) : 0 ≤ length v :=
  Real.sqrt_nonneg _

theorem length_eq_zero_iff (v : ℝ × ℝ) : length v = 0 ↔ v = (0, 0) := by
  rw [length, Real.sqrt_eq_zero (by positivity), Prod.ext_iff]
  constructor
  · intro h
    have e1 : v.1 ^ 2 = 0 := le_antisymm (by nlinarith [sq_nonneg v.2]) (by positivity)
    have e2 : v.2 ^ 2 = 0 := le_antisymm (by nlinarith [sq_nonneg v.1]) (by positivity)
    exact ⟨pow_eq_zero_iff two_ne_zero |>.mp e1, pow_eq_zero_iff two_ne_zero |>.mp e2⟩
  · rintro ⟨a, b⟩
    rw [a, b]
    ring

theorem length_pair_mul (c x y : ℝ) : length (c * x, c * y) = |c| * length (x, y) := by
  rw [length, length, show (c * x) ^ 2 + (c * y) ^ 2 = c ^ 2 * (x ^ 2 + y ^ 2) by ring,
    Real.sqrt_mul (sq_nonneg c), Real.sqrt_sq_eq_abs]

theorem length_opposite (v : ℝ × ℝ) : length (opposite v) = length v := by
  rw [opposite, length, length]
  norm_num

theorem normal_of_len_ne (v : ℝ × ℝ) (s : ℝ) (h : length v ≠ 0) :
    normal v s = ((s / length v) * v.1, (s / length v) * v.2) := by
  rw [normal, if_pos h, Prod.ext_iff]
  constructor <;> (dsimp only; ring)

theorem normal_of_len_zero (v : ℝ × ℝ) (s : ℝ) (h : length v = 0) :
    normal v s = (0, 0) := by
  rw [normal, if_neg (not_not_intro h)]

/-- C8: `normal(v, s)` scales `v` to length `|s|` when `length v` is
nonzero (the result is `v` multiplied by the scalar `s / length v`), and
returns the zero vector when `length v = 0`, never executing the division;
in particular `normal (0, 0) 5 = (0, 0)`. -/
theorem C8_normalize_safe :
    (∀ (v : ℝ × ℝ) (s : ℝ), length v ≠ 0 →
        normal v s = ((s / length v) * v.1, (s / length v) * v.2) ∧
        length (normal v s) = |s|) ∧
    (∀ (v : ℝ × ℝ) (s : ℝ), length v = 0 → normal v s = (0, 0)) ∧
    normal ((0 : ℝ), (0 : ℝ)) 5 = (0, 0) := by
  have hzero : ∀ (v : ℝ × ℝ) (s : ℝ), length v = 0 → normal v s = (0, 0) := by
    intro v s h
    rw [normal, if_neg (not_not_intro h)]
  refine ⟨?_, hzero, ?_⟩
  · intro v s h
    have hform : normal v s = ((s / length v) * v.1, (s / length v) * v.2) := by
      rw [normal, if_pos h, Prod.ext_iff]
      constructor <;> (dsimp only; ring)
    refine ⟨hform, ?_⟩
    rw [hform]
    have hv : (v.1, v.2) = v := rfl
    rw [length_pair_mul (s / length v) v.1 v.2, hv, abs_div,
      abs_of_nonneg (length_nonneg v), div_mul_cancel₀ _ h]
  · apply hzero
    rw [length]
    norm_num

/-- `move_point` at `POSITION`, unfolded: a rigid translation of anchor and
both handles to the resolved target. -/
theorem move_position_unfold (pt : Point ℝ) (position offset : ℝ × ℝ) :
    pt.move_point PointType.POSITION position offset =
      { pos := (offset.1 + position.1, offset.2 + position.2),
        begin := (offset.1 + position.1 + (pt.begin.1 - pt.pos.1),
                  offset.2 + position.2 + (pt.begin.2 - pt.pos.2)),
        end_ := (offset.1 + position.1 + (pt.end_.1 - pt.pos.1),
                 offset.2 + position.2 + (pt.end_.2 - pt.pos.2)),
        mode := pt.mode } := rfl

/-- `move_point` at `CTRL_BEGIN`, unfolded into the three mode branches. -/
theorem move_begin_unfold (pt : Point ℝ) (position offset : ℝ × ℝ) :
    pt.move_point PointType.CTRL_BEGIN position offset =
      (if pt.mode = PointMode.SMOOTH then
        { pos := pt.pos,
          begin := (offset.1 + position.1, offset.2 + position.2),
          end_ := (pt.pos.1 + (normal (opposite ((offset.1 + position.1) - pt.pos.1,
                                                 (offset.2 + position.2) - pt.pos.2))
                                 (length (pt.end_.1 - pt.pos.1, pt.end_.2 - pt.pos.2))).1,
                   pt.pos.2 + (normal (opposite ((offset.1 + position.1) - pt.pos.1,
                                                 (offset.2 + position.2) - pt.pos.2))
                                 (length (pt.end_.1 - pt.pos.1, pt.end_.2 - pt.pos.2))).2),
          mode := pt.mode }
      else if pt.mode = PointMode.SYMMETRICAL then
        { pos := pt.pos,
          begin := (offset.1 + position.1, offset.2 + position.2),
          end_ := (pt.pos.1 + (opposite ((offset.1 + position.1) - pt.pos.1,
                                         (offset.2 + position.2) - pt.pos.2)).1,
                   pt.pos.2 + (opposite ((offset.1 + position.1) - pt.pos.1,
                                         (offset.2 + position.2) - pt.pos.2)).2),
          mode := pt.mode }
      else
        { pos := pt.pos,
          begin := (offset.1 + position.1, offset.2 + position.2),
          end_ := pt.end_,
          mode := pt.mode }) := rfl

/-- `move_point` at `CTRL_END`, unfolded into the three mode branches. -/
theorem move_end_unfold (pt : Point ℝ) (position offset : ℝ × ℝ) :
    pt.move_point PointType.CTRL_END position offset =
      (if pt.mode = PointMode.SMOOTH then
        { pos := pt.pos,
          begin := (pt.pos.1 + (normal (opposite ((offset.1 + position.1) - pt.pos.1,
                                                  (offset.2 + position.2) - pt.pos.2))
                                  (length (pt.begin.1 - pt.pos.1, pt.begin.2 - pt.pos.2))).1,
                    pt.pos.2 + (normal (opposite ((offset.1 + position.1) - pt.pos.1,
                                                  (offset.2 + position.2) - pt.pos.2))
                                  (length (pt.begin.1 - pt.pos.1, pt.begin.2 - pt.pos.2))).2),
          end_ := (offset.1 + position.1, offset.2 + position.2),
          mode := pt.mode }
      else if pt.mode = PointMode.SYMMETRICAL then
        { pos := pt.pos,
          begin := (pt.pos.1 + (opposite ((offset.1 + position.1) - pt.pos.1,
                                          (offset.2 + position.2) - pt.pos.2)).1,
                    pt.pos.2 + (opposite ((offset.1 + position.1) - pt.pos.1,
                                          (offset.2 + position.2) - pt.pos.2)).2),
          end_ := (offset.1 + position.1, offset.2 + position.2),
          mode := pt.mode }
      else
        { pos := pt.pos,
          begin := pt.begin,
          end_ := (offset.1 + position.1, offset.2 + position.2),
          mode := pt.mode }) := rfl

theorem move_begin_symm (pt : Point ℝ) (position offset : ℝ × ℝ)
    (hmode : pt.mode = PointMode.SYMMETRICAL) :
    pt.move_point PointType.CTRL_BEGIN position offset =
      { pos := pt.pos,
        begin := (offset.1 + position.1, offset.2 + position.2),
        end_ := (pt.pos.1 + -((offset.1 + position.1) - pt.pos.1),
                 pt.pos.2 + -((offset.2 + position.2) - pt.pos.2)),
        mode := pt.mode } := by
  rw [move_begin_unfold, hmode]
  rw [if_neg (show PointMode.SYMMETRICAL ≠ PointMode.SMOOTH by decide), if_pos rfl]
  rfl

theorem move_end_symm (pt : Point ℝ) (position offset : ℝ × ℝ)
    (hmode : pt.mode = PointMode.SYMMETRICAL) :
    pt.move_point PointType.CTRL_END position offset =
      { pos := pt.pos,
        begin := (pt.pos.1 + -((offset.1 + position.1) - pt.pos.1),
                  pt.pos.2 + -((offset.2 + position.2) - pt.pos.2)),
        end_ := (offset.1 + position.1, offset.2 + position.2),
        mode := pt.mode } := by
  rw [move_end_unfold, hmode]
  rw [if_neg (show PointMode.SYMMETRICAL ≠ PointMode.SMOOTH by decide), if_pos rfl]
  rfl

theorem move_begin_smooth (pt : Point ℝ) (position offset : ℝ × ℝ)
    (hmode : pt.mode = PointMode.SMOOTH) :
    pt.move_point PointType.CTRL_BEGIN position offset =
      { pos := pt.pos,
        begin := (offset.1 + position.1, offset.2 + position.2),
        end_ := (pt.pos.1 + (normal (opposite ((offset.1 + position.1) - pt.pos.1,
                                               (offset.2 + position.2) - pt.pos.2))
                               (length (pt.end_.1 - pt.pos.1, pt.end_.2 - pt.pos.2))).1,
                 pt.pos.2 + (normal (opposite ((offset.1 + position.1) - pt.pos.1,
                                               (offset.2 + position.2) - pt.pos.2))
                               (length (pt.end_.1 - pt.pos.1, pt.end_.2 - pt.pos.2))).2),
        mode := pt.mode } := by
  rw [move_begin_unfold, hmode]
  rw [if_pos rfl]

theorem move_end_smooth (pt : Point ℝ) (position offset : ℝ × ℝ)
    (hmode : pt.mode = PointMode.SMOOTH) :
    pt.move_point PointType.CTRL_END position offset =
      { pos := pt.pos,
        begin := (pt.pos.1 + (normal (opposite ((offset.1 + position.1) - pt.pos.1,
                                                (offset.2 + position.2) - pt.pos.2))
                                (length (pt.begin.1 - pt.pos.1, pt.begin.2 - pt.pos.2))).1,
                  pt.pos.2 + (normal (opposite ((offset.1 + position.1) - pt.pos.1,
                                                (offset.2 + position.2) - pt.pos.2))
                                (length (pt.begin.1 - pt.pos.1, pt.begin.2 - pt.pos.2))).2),
        end_ := (offset.1 + position.1, offset.2 + position.2),
        mode := pt.mode } := by
  rw [move_end_unfold, hmode]
  rw [if_pos rfl]

/-- C5: in `SYMMETRICAL` mode, moving one handle so that its resolved
displacement from the anchor is `d` places the sibling handle at
displacement `-d` from the anchor (exact mirror), for both `CTRL_BEGIN` and
`CTRL_END`; the anchor stays and the moved handle lands on the resolved
target. -/
theorem C5_symmetrical_mirrors (pt : Point ℝ) (position offset : ℝ × ℝ)
    (hmode : pt.mode = PointMode.SYMMETRICAL) :
    (let pt2 := pt.move_point PointType.CTRL_BEGIN position offset
     pt2.pos = pt.pos ∧ pt2.begin = resolved position offset ∧
     vsub pt2.end_ pt2.pos = opposite (vsub (resolved position offset) pt.pos)) ∧
    (let pt2 := pt.move_point PointType.CTRL_END position offset
     pt2.pos = pt.pos ∧ pt2.end_ = resolved position offset ∧
     vsub pt2.begin pt2.pos = opposite (vsub (resolved position offset) pt.pos)) := by
  constructor
  · rw [move_begin_symm pt position offset hmode]
    refine ⟨rfl, rfl, ?_⟩
    simp only [vsub, resolved, opposite, Prod.ext_iff]
    constructor <;> (dsimp only; ring)
  · rw [move_end_symm pt position offset hmode]
    refine ⟨rfl, rfl, ?_⟩
    simp only [vsub, resolved, opposite, Prod.ext_iff]
    constructor <;> (dsimp only; ring)

/-- C4: in `SMOOTH` mode, moving one handle to a resolved displacement
`d ≠ 0` from the anchor places the sibling handle at displacement
`-(elen / |d|) * d` — exactly the opposite direction of `d` — where `elen`
is the sibling's pre-move distance from the anchor, which is therefore
preserved; for both `CTRL_BEGIN` and `CTRL_END`. -/
theorem C4_smooth_opposite_preserves_distance (pt : Point ℝ)
    (position offset d : ℝ × ℝ) (hmode : pt.mode = PointMode.SMOOTH)
    (hd : d = vsub (resolved position offset) pt.pos) (hdne : d ≠ (0, 0)) :
    ((pt.move_point PointType.CTRL_BEGIN position offset).pos = pt.pos ∧
     (pt.move_point PointType.CTRL_BEGIN position offset).begin = resolved position offset ∧
     vsub (pt.move_point PointType.CTRL_BEGIN position offset).end_ pt.pos
       = (-(length (vsub pt.end_ pt.pos) / length d) * d.1,
          -(length (vsub pt.end_ pt.pos) / length d) * d.2) ∧
     length (vsub (pt.move_point PointType.CTRL_BEGIN position offset).end_ pt.pos)
       = length (vsub pt.end_ pt.pos)) ∧
    ((pt.move_point PointType.CTRL_END position offset).pos = pt.pos ∧
     (pt.move_point PointType.CTRL_END position offset).end_ = resolved position offset ∧
     vsub (pt.move_point PointType.CTRL_END position offset).begin pt.pos
       = (-(length (vsub pt.begin pt.pos) / length d) * d.1,
          -(length (vsub pt.begin pt.pos) / length d) * d.2) ∧
     length (vsub (pt.move_point PointType.CTRL_END position offset).begin pt.pos)
       = length (vsub pt.begin pt.pos)) := by
  have hLd : length d ≠ 0 := fun h => hdne ((length_eq_zero_iff d).mp h)
  have hLop : length (opposite d) ≠ 0 := by rw [length_opposite]; exact hLd
  have hfold : ((offset.1 + position.1) - pt.pos.1, (offset.2 + position.2) - pt.pos.2)
      = vsub (resolved position offset) pt.pos := rfl
  have hdpair : (d.1, d.2) = d := rfl
  have habs : |(-(length (vsub pt.end_ pt.pos) / length d))|
      = length (vsub pt.end_ pt.pos) / length d := by
    rw [abs_neg, abs_of_nonneg (div_nonneg (length_nonneg _) (length_nonneg _))]
  have habs2 : |(-(length (vsub pt.begin pt.pos) / length d))|
      = length (vsub pt.begin pt.pos) / length d := by
    rw [abs_neg, abs_of_nonneg (div_nonneg (length_nonneg _) (length_nonneg _))]
  constructor
  · have hend : vsub (pt.move_point PointType.CTRL_BEGIN position offset).end_ pt.pos
        = (-(length (vsub pt.end_ pt.pos) / length d) * d.1,
           -(length (vsub pt.end_ pt.pos) / length d) * d.2) := by
      rw [move_begin_smooth pt position offset hmode]
      show vsub (pt.pos.1 + (normal (opposite ((offset.1 + position.1) - pt.pos.1,
                                               (offset.2 + position.2) - pt.pos.2))
                               (length (pt.end_.1 - pt.pos.1, pt.end_.2 - pt.pos.2))).1,
                 pt.pos.2 + (normal (opposite ((offset.1 + position.1) - pt.pos.1,
                                               (offset.2 + position.2) - pt.pos.2))
                               (length (pt.end_.1 - pt.pos.1, pt.end_.2 - pt.pos.2))).2)
            pt.pos = _
      rw [hfold, ← hd]
      rw [show (pt.end_.1 - pt.pos.1, pt.end_.2 - pt.pos.2) = vsub pt.end_ pt.pos from rfl]
      rw [normal_of_len_ne _ _ hLop, length_opposite]
      rw [show opposite d = (-d.1, -d.2) from rfl]
      rw [vsub, Prod.ext_iff]
      constructor <;> (dsimp only; ring)
    refine ⟨?_, ?_, hend, ?_⟩
    · rw [move_begin_smooth pt position offset hmode]
    · rw [move_begin_smooth pt position offset hmode]
      rfl
    · rw [hend, length_pair_mul, hdpair, habs, div_mul_cancel₀ _ hLd]

  · have hbeg : vsub (pt.move_point PointType.CTRL_END position offset).begin pt.pos
        = (-(length (vsub pt.begin pt.pos) / length d) * d.1,
           -(length (vsub pt.begin pt.pos) / length d) * d.2) := by
      rw [move_end_smooth pt position offset hmode]
      show vsub (pt.pos.1 + (normal (opposite ((offset.1 + position.1) - pt.pos.1,
                                               (offset.2 + position.2) - pt.pos.2))
                               (length (pt.begin.1 - pt.pos.1, pt.begin.2 - pt.pos.2))).1,
                 pt.pos.2 + (normal (opposite ((offset.1 + position.1) - pt.pos.1,
                                               (offset.2 + position.2) - pt.pos.2))
                               (length (pt.begin.1 - pt.pos.1, pt.begin.2 - pt.pos.2))).2)
            pt.pos = _
      rw [hfold, ← hd]
      rw [show (pt.begin.1 - pt.pos.1, pt.begin.2 - pt.pos.2) = vsub pt.begin pt.pos from rfl]
      rw [normal_of_len_ne _ _ hLop, length_opposite]
      rw [show opposite d = (-d.1, -d.2) from rfl]
      rw [vsub, Prod.ext_iff]
      constructor <;> (dsimp only; ring)
    refine ⟨?_, ?_, hbeg, ?_⟩
    · rw [move_end_smooth pt position offset hmode]
    · rw [move_end_smooth pt position offset hmode]
      rfl
    · rw [hbeg, length_pair_mul, hdpair, habs2, div_mul_cancel₀ _ hLd]

/-- C10: in `SMOOTH` mode, when the move places the handle exactly onto the
anchor (resolved displacement zero) while the sibling handle had nonzero
pre-move distance, the sibling handle is snapped exactly onto the anchor
too — its pre-move distance is not preserved — and the (total) model raises
no error; for both `CTRL_BEGIN` and `CTRL_END`. -/
theorem C10_smooth_degenerate_collapses (pt : Point ℝ) (position offset : ℝ × ℝ)
    (hmode : pt.mode = PointMode.SMOOTH)
    (htarget : resolved position offset = pt.pos) :
    (length (vsub pt.end_ pt.pos) ≠ 0 →
      (pt.move_point PointType.CTRL_BEGIN position offset).pos = pt.pos ∧
      (pt.move_point PointType.CTRL_BEGIN position offset).begin = pt.pos ∧
      (pt.move_point PointType.CTRL_BEGIN position offset).end_ = pt.pos ∧
      length (vsub (pt.move_point PointType.CTRL_BEGIN position offset).end_
                   (pt.move_point PointType.CTRL_BEGIN position offset).pos)
        ≠ length (vsub pt.end_ pt.pos)) ∧
    (length (vsub pt.begin pt.pos) ≠ 0 →
      (pt.move_point PointType.CTRL_END position offset).pos = pt.pos ∧
      (pt.move_point PointType.CTRL_END position offset).end_ = pt.pos ∧
      (pt.move_point PointType.CTRL_END position offset).begin = pt.pos ∧
      length (vsub (pt.move_point PointType.CTRL_END position offset).begin
                   (pt.move_point PointType.CTRL_END position offset).pos)
        ≠ length (vsub pt.begin pt.pos)) := by
  have ht1 : offset.1 + position.1 = pt.pos.1 := congrArg Prod.fst htarget
  have ht2 : offset.2 + position.2 = pt.pos.2 := congrArg Prod.snd htarget
  have hdzero : ((offset.1 + position.1) - pt.pos.1, (offset.2 + position.2) - pt.pos.2)
      = ((0 : ℝ), (0 : ℝ)) := by
    rw [ht1, ht2, Prod.ext_iff]
    constructor <;> (dsimp only; ring)
  have hopp : opposite (((0 : ℝ)), ((0 : ℝ))) = ((0 : ℝ), (0 : ℝ)) := by
    rw [opposite]
    norm_num
  have hlen0 : length ((0 : ℝ), (0 : ℝ)) = 0 := by
    rw [length]
    norm_num
  have hzz : length (vsub ((0 : ℝ), (0 : ℝ)) ((0 : ℝ), (0 : ℝ))) = 0 := by
    rw [vsub]
    dsimp only
    norm_num [length]
  constructor
  · intro helen
    have hmove : (pt.move_point PointType.CTRL_BEGIN position offset) =
        { pos := pt.pos, begin := (offset.1 + position.1, offset.2 + position.2),
          end_ := pt.pos, mode := pt.mode } := by
      rw [move_begin_smooth pt position offset hmode, hdzero, hopp,
        normal_of_len_zero _ _ hlen0]
      rw [Point.mk.injEq]
      refine ⟨rfl, rfl, ?_, rfl⟩
      rw [Prod.ext_iff]
      constructor <;> (dsimp only; ring)
    rw [hmove]
    refine ⟨rfl, by rw [ht1, ht2], rfl, ?_⟩
    dsimp only
    rw [show vsub pt.pos pt.pos = ((0 : ℝ), (0 : ℝ)) by rw [vsub, Prod.ext_iff]; constructor <;> (dsimp only; ring)]
    rw [hlen0]
    exact fun h => helen h.symm
  · intro hblen
    have hmove : (pt.move_point PointType.CTRL_END position offset) =
        { pos := pt.pos, begin := pt.pos,
          end_ := (offset.1 + position.1, offset.2 + position.2), mode := pt.mode } := by
      rw [move_end_smooth pt position offset hmode, hdzero, hopp,
        normal_of_len_zero _ _ hlen0]
      rw [Point.mk.injEq]
      refine ⟨rfl, ?_, rfl, rfl⟩
      rw [Prod.ext_iff]
      constructor <;> (dsimp only; ring)
    rw [hmove]
    refine ⟨rfl, by rw [ht1, ht2], rfl, ?_⟩
    dsimp only
    rw [show vsub pt.pos pt.pos = ((0 : ℝ), (0 : ℝ)) by rw [vsub, Prod.ext_iff]; constructor <;> (dsimp only; ring)]
    rw [hlen0]
    exact fun h => hblen h.symm

theorem withinMargin_some {α : Type} [LinearOrderedField α] (location p : α × α)
    (margin : α) (o : α × α) (h : withinMargin location p margin = some o) :
    o = vsub location p := by
  rw [withinMargin] at h
  by_cases hc : |location.1 - p.1| > margin ∨ |location.2 - p.2| > margin
  · rw [if_pos hc] at h
    exact absurd h (by simp)
  · rw [if_neg hc] at h
    simp only [Option.some.injEq] at h
    rw [← h]
    rfl

/-- C7 amended: `find_point` returns the offset `location - part` (the
vector from the hit part to the hit location, not the reverse), and
`move_point` places the grabbed part exactly at the resolved target
`offset + new_location`; hence calling `move_point` again with the same
location puts the part at `2 * location - part`, which differs from the
part's original coordinates whenever the hit was not exact. -/
theorem C7_offset_move_roundtrip (pt : Point ℝ) (location : ℝ × ℝ) (margin : ℝ)
    (t : PointType) (ofs : ℝ × ℝ)
    (hfind : pt.find_point location margin = some (t, ofs)) :
    ofs = vsub location (getPart pt t) ∧
    getPart (pt.move_point t location ofs) t = resolved location ofs ∧
    getPart (pt.move_point t location ofs) t
      = (2 * location.1 - (getPart pt t).1, 2 * location.2 - (getPart pt t).2) := by
  suffices h : ofs = vsub location (getPart pt t) ∧
      getPart (pt.move_point t location ofs) t = resolved location ofs by
    obtain ⟨h1, h2⟩ := h
    refine ⟨h1, h2, ?_⟩
    rw [h2, h1]
    rw [resolved, vsub, Prod.ext_iff]
    constructor <;> (dsimp only; ring)
  rw [Point.find_point] at hfind
  cases hpos : withinMargin location pt.pos margin with
  | some o =>
    rw [hpos] at hfind
    simp only [Option.some.injEq, Prod.mk.injEq] at hfind
    obtain ⟨ht, hofs⟩ := hfind
    subst ht
    subst hofs
    refine ⟨withinMargin_some _ _ _ _ hpos, ?_⟩
    rw [move_position_unfold]
    rfl
  | none =>
    rw [hpos] at hfind
    cases hbeg : withinMargin location pt.begin margin with
    | some o =>
      rw [hbeg] at hfind
      simp only [Option.some.injEq, Prod.mk.injEq] at hfind
      obtain ⟨ht, hofs⟩ := hfind
      subst ht
      subst hofs
      refine ⟨withinMargin_some _ _ _ _ hbeg, ?_⟩
      rw [move_begin_unfold]
      split
      · rfl
      · split <;> rfl
    | none =>
      rw [hbeg] at hfind
      cases hend : withinMargin location pt.end_ margin with
      | some o =>
        rw [hend] at hfind
        simp only [Option.some.injEq, Prod.mk.injEq] at hfind
        obtain ⟨ht, hofs⟩ := hfind
        subst ht
        subst hofs
        refine ⟨withinMargin_some _ _ _ _ hend, ?_⟩
        rw [move_end_unfold]
        split
        · rfl
        · split <;> rfl
      | none =>
        rw [hend] at hfind
        exact absurd hfind (by simp)

theorem cexPt_find : cexPt.find_point ((1 : ℝ), 1) 2 = some (PointType.POSITION, (1, 1)) := by
  have hw : withinMargin ((1 : ℝ), 1) cexPt.pos 2 = some (1, 1) := by
    show (if |(1 : ℝ) - cexPt.pos.1| > 2 ∨ |(1 : ℝ) - cexPt.pos.2| > 2 then none
          else some ((1 : ℝ) - cexPt.pos.1, (1 : ℝ) - cexPt.pos.2)) = some (1, 1)
    rw [if_neg (by norm_num [cexPt])]
    norm_num [cexPt]
  rw [Point.find_point, hw]

/-- C7 counterexample: the claim says the offset is the vector from the hit
location to the part (`part - location`) and that re-issuing `move` at the
same location leaves the part in place; at `cexPt` hit at `(1, 1)` the
returned offset is `(1, 1) = location - part`, not `(-1, -1) = part -
location`, and the move puts the anchor at `(2, 2)`, not back at `(0, 0)`. -/
theorem C7_counterexample :
    cexPt.find_point ((1 : ℝ), 1) 2 = some (PointType.POSITION, (1, 1)) ∧
    ¬((1 : ℝ), (1 : ℝ)) = vsub cexPt.pos ((1 : ℝ), 1) ∧
    (cexPt.move_point PointType.POSITION ((1 : ℝ), 1) (1, 1)).pos = ((2 : ℝ), 2) ∧
    ¬((2 : ℝ), (2 : ℝ)) = cexPt.pos := by
  refine ⟨cexPt_find, ?_, ?_, ?_⟩
  · norm_num [vsub, cexPt, Prod.ext_iff]
  · rw [move_position_unfold]
    norm_num
  · norm_num [cexPt, Prod.ext_iff]

/-- Witness for C7 at the concrete hit of `cexPt`. -/
theorem C7_offset_move_roundtrip_witness :
    cexPt.find_point ((1 : ℝ), 1) 2 = some (PointType.POSITION, (1, 1)) ∧
    (((1 : ℝ), (1 : ℝ)) = vsub ((1 : ℝ), 1) (getPart cexPt PointType.POSITION) ∧
     getPart (cexPt.move_point PointType.POSITION ((1 : ℝ), 1) (1, 1)) PointType.POSITION
       = resolved ((1 : ℝ), 1) (1, 1) ∧
     getPart (cexPt.move_point PointType.POSITION ((1 : ℝ), 1) (1, 1)) PointType.POSITION
       = (2 * (1 : ℝ) - (getPart cexPt PointType.POSITION).1,
          2 * (1 : ℝ) - (getPart cexPt PointType.POSITION).2)) :=
  ⟨cexPt_find, C7_offset_move_roundtrip cexPt ((1 : ℝ), 1) 2 PointType.POSITION (1, 1) cexPt_find⟩

/-- Witness for C4: move `smoothPt.begin` to `(3, 4)`, a displacement
`d = (3, 4) ≠ 0` from the anchor. -/
theorem C4_smooth_witness :
    smoothPt.mode = PointMode.SMOOTH ∧
    ((3 : ℝ), (4 : ℝ)) = vsub (resolved ((3 : ℝ), 4) ((0 : ℝ), 0)) smoothPt.pos ∧
    ((3 : ℝ), (4 : ℝ)) ≠ (0, 0) ∧
    (((smoothPt.move_point PointType.CTRL_BEGIN ((3 : ℝ), 4) ((0 : ℝ), 0)).pos = smoothPt.pos ∧
      (smoothPt.move_point PointType.CTRL_BEGIN ((3 : ℝ), 4) ((0 : ℝ), 0)).begin
        = resolved ((3 : ℝ), 4) ((0 : ℝ), 0) ∧
      vsub (smoothPt.move_point PointType.CTRL_BEGIN ((3 : ℝ), 4) ((0 : ℝ), 0)).end_ smoothPt.pos
        = (-(length (vsub smoothPt.end_ smoothPt.pos) / length ((3 : ℝ), (4 : ℝ))) * ((3 : ℝ), (4 : ℝ)).1,
           -(length (vsub smoothPt.end_ smoothPt.pos) / length ((3 : ℝ), (4 : ℝ))) * ((3 : ℝ), (4 : ℝ)).2) ∧
      length (vsub (smoothPt.move_point PointType.CTRL_BEGIN ((3 : ℝ), 4) ((0 : ℝ), 0)).end_ smoothPt.pos)
        = length (vsub smoothPt.end_ smoothPt.pos)) ∧
     ((smoothPt.move_point PointType.CTRL_END ((3 : ℝ), 4) ((0 : ℝ), 0)).pos = smoothPt.pos ∧
      (smoothPt.move_point PointType.CTRL_END ((3 : ℝ), 4) ((0 : ℝ), 0)).end_
        = resolved ((3 : ℝ), 4) ((0 : ℝ), 0) ∧
      vsub (smoothPt.move_point PointType.CTRL_END ((3 : ℝ), 4) ((0 : ℝ), 0)).begin smoothPt.pos
        = (-(length (vsub smoothPt.begin smoothPt.pos) / length ((3 : ℝ), (4 : ℝ))) * ((3 : ℝ), (4 : ℝ)).1,
           -(length (vsub smoothPt.begin smoothPt.pos) / length ((3 : ℝ), (4 : ℝ))) * ((3 : ℝ), (4 : ℝ)).2) ∧
      length (vsub (smoothPt.move_point PointType.CTRL_END ((3 : ℝ), 4) ((0 : ℝ), 0)).begin smoothPt.pos)
        = length (vsub smoothPt.begin smoothPt.pos))) := by
  have hd : ((3 : ℝ), (4 : ℝ)) = vsub (resolved ((3 : ℝ), 4) ((0 : ℝ), 0)) smoothPt.pos := by
    norm_num [vsub, resolved, smoothPt, Prod.ext_iff]
  have hdne : ((3 : ℝ), (4 : ℝ)) ≠ (0, 0) := by norm_num [Prod.ext_iff]
  exact ⟨rfl, hd, hdne,
    C4_smooth_opposite_preserves_distance smoothPt ((3 : ℝ), 4) ((0 : ℝ), 0) ((3 : ℝ), 4) rfl hd hdne⟩

/-- Witness for C5: move `symmPt`'s handles, resolved target `(6, 8)`. -/
theorem C5_symmetrical_witness :
    symmPt.mode = PointMode.SYMMETRICAL ∧
    ((let pt2 := symmPt.move_point PointType.CTRL_BEGIN ((5 : ℝ), 7) ((1 : ℝ), 1)
      pt2.pos = symmPt.pos ∧ pt2.begin = resolved ((5 : ℝ), 7) ((1 : ℝ), 1) ∧
      vsub pt2.end_ pt2.pos = opposite (vsub (resolved ((5 : ℝ), 7) ((1 : ℝ), 1)) symmPt.pos)) ∧
     (let pt2 := symmPt.move_point PointType.CTRL_END ((5 : ℝ), 7) ((1 : ℝ), 1)
      pt2.pos = symmPt.pos ∧ pt2.end_ = resolved ((5 : ℝ), 7) ((1 : ℝ), 1) ∧
      vsub pt2.begin pt2.pos = opposite (vsub (resolved ((5 : ℝ), 7) ((1 : ℝ), 1)) symmPt.pos))) :=
  ⟨rfl, C5_symmetrical_mirrors symmPt ((5 : ℝ), 7) ((1 : ℝ), 1) rfl⟩

/-- Witness for C10: move `smoothPt.begin` exactly onto the anchor (target
`(0, 0)`); the sibling `end` handle had distance `20 ≠ 0` and collapses to
the anchor. -/
theorem C10_smooth_degenerate_witness :
    smoothPt.mode = PointMode.SMOOTH ∧
    resolved ((0 : ℝ), 0) ((0 : ℝ), 0) = smoothPt.pos ∧
    length (vsub smoothPt.end_ smoothPt.pos) ≠ 0 ∧
    ((smoothPt.move_point PointType.CTRL_BEGIN ((0 : ℝ), 0) ((0 : ℝ), 0)).pos = smoothPt.pos ∧
     (smoothPt.move_point PointType.CTRL_BEGIN ((0 : ℝ), 0) ((0 : ℝ), 0)).begin = smoothPt.pos ∧
     (smoothPt.move_point PointType.CTRL_BEGIN ((0 : ℝ), 0) ((0 : ℝ), 0)).end_ = smoothPt.pos ∧
     length (vsub (smoothPt.move_point PointType.CTRL_BEGIN ((0 : ℝ), 0) ((0 : ℝ), 0)).end_
                  (smoothPt.move_point PointType.CTRL_BEGIN ((0 : ℝ), 0) ((0 : ℝ), 0)).pos)
       ≠ length (vsub smoothPt.end_ smoothPt.pos)) := by
  have ht : resolved ((0 : ℝ), 0) ((0 : ℝ), 0) = smoothPt.pos := by
    norm_num [resolved, smoothPt, Prod.ext_iff]
  have h20 : length (vsub smoothPt.end_ smoothPt.pos) = 20 := by
    show Real.sqrt (((0 : ℝ) - 0) ^ 2 + ((20 : ℝ) - 0) ^ 2) = 20
    rw [show ((0 : ℝ) - 0) ^ 2 + ((20 : ℝ) - 0) ^ 2 = 20 ^ 2 by norm_num,
      Real.sqrt_sq (by norm_num)]
  have hlen : length (vsub smoothPt.end_ smoothPt.pos) ≠ 0 := by
    rw [h20]
    norm_num
  exact ⟨rfl, ht, hlen,
    (C10_smooth_degenerate_collapses smoothPt ((0 : ℝ), 0) ((0 : ℝ), 0) rfl ht).1 hlen⟩

end PyBez
